import Mathlib

/-!
Verification of the post-scaffolding helper in `src/utils/index.js`
(quasarframework/app).

The JavaScript source is shallowly embedded:

* a JS object holding package-name → version-specifier pairs is an
  association list `List (String × String)` (insertion order significant,
  keys unique in any object produced by `JSON.parse`);
* the manifest (`package.json`) is a structure with the two optional
  fields the code touches;
* the questionnaire `data` record is a structure with the fields the
  code reads; a falsy `data.autoInstall` is modelled as the empty string;
* `runCommand`'s promise outcome is a `ProcessResult`; the payload of the
  child's `exit` event (`number | null`) is an `Option Int`;
* the orchestrator `complete` is modelled as a function from the
  configuration and an environment (manifest-read result and the exit
  payloads of the two possible subprocesses) to the list of observable
  events it performs, plus how the invocation ends (returns normally,
  calls `process.exit`, or throws out of `complete`).
-/

namespace QuasarApp

/-- `lintStyles = ['prettier', 'standard', 'airbnb']` from the source. -/
def lintStyles : List String := ["prettier", "standard", "airbnb"]

/-- Decision procedure for `≤` on `String` through `toList`, used so that
concrete instances evaluate inside the kernel. -/
def decStrLe : DecidableRel (fun a b : String => a ≤ b) := fun a b =>
  decidable_of_iff (a.toList ≤ b.toList) String.le_iff_toList_le.symm

/-- `Object.keys(object).sort()`: the key list sorted ascending by the
string order (JS's default comparator on the ASCII package names at
hand). -/
def sortStrings (keys : List String) : List String :=
  @List.insertionSort String (· ≤ ·) decStrLe keys

/-- `sortObject` from the source: `Object.keys(object).sort()` followed by
re-inserting each key in sorted order, so the new object maps each key to
its value in the original (`sortedObject[item] = object[item]`).
`Object.keys` order is insertion order for the string keys at hand;
lookup of a key yields the first binding with that key. -/
def sortObject (object : List (String × String)) : List (String × String) :=
  (sortStrings (object.map Prod.fst)).map
    (fun item => (item, (object.lookup item).getD ""))

/-- The manifest (`package.json`): only the two fields the code touches,
each an optional object. `none` models an absent (falsy) field;
`some l` a present object (JS objects, even empty ones, are truthy). -/
structure Manifest where
  dependencies : Option (List (String × String))
  devDependencies : Option (List (String × String))
  deriving Repr, DecidableEq

/-- The pure core of `sortDependencies`: the rewritten manifest together
with the `sorted` flag that decides whether `fs.writeFileSync` runs.
In the source, `sorted` is set to `true` whenever the field is present
(`if (pkg.dependencies) { sorted = true; ... }`), independently of
whether the keys were already in order. -/
def sortDependencies (pkg : Manifest) : Manifest × Bool :=
  let (pkg, sorted) :=
    match pkg.dependencies with
    | some deps => ({ pkg with dependencies := some (sortObject deps) }, true)
    | none => (pkg, false)
  let (pkg, sorted) :=
    match pkg.devDependencies with
    | some deps => ({ pkg with devDependencies := some (sortObject deps) }, true)
    | none => (pkg, sorted)
  (pkg, sorted)

/-- Outcome of a `runCommand` promise: resolved with no value, or rejected
with the numeric exit code passed to `reject`. -/
inductive ProcessResult where
  | success
  | failure (code : Int)
  deriving Repr, DecidableEq

/-- The `exit`-event listener of `runCommand`:
`code => { if (code) { reject(code) } else { resolve() } }`.
The event payload is `number | null` (`null` when the child was killed by
a signal); `null` and `0` are falsy, every other number is truthy. -/
def runCommandOutcome : Option Int → ProcessResult
  | none => .success
  | some c => if c = 0 then .success else .failure c

/-- The questionnaire `data` record, restricted to the fields this file of
the source reads. A falsy `autoInstall` is modelled as `""`. -/
structure Config where
  inPlace : Bool
  destDirName : String
  autoInstall : String
  lint : Bool
  presetLint : Bool
  lintConfig : String
  deriving Repr, DecidableEq

/-- `lintMsg` from the source:
`!data.autoInstall && data.lint && lintStyles.indexOf(data.lintConfig) !== -1
  ? '...' : ''`. -/
def lintMsg (data : Config) : String :=
  if data.autoInstall == "" && data.lint && lintStyles.contains data.lintConfig
  then "npm run lint -- --fix (or for yarn: yarn run lint --fix)\n  "
  else ""

/-- `installMsg` from the source. -/
def installMsg (data : Config) : String :=
  if data.autoInstall == "" then "npm install (or if using yarn: yarn)\n  "
  else ""

/-- Observable events of one orchestration run. -/
inductive Ev where
  /-- `fs.writeFileSync(pkgFile, ...)` with the rewritten manifest. -/
  | writeManifest (m : Manifest)
  /-- `starredLog` console banner. -/
  | starLog (msg : String)
  /-- a `runCommand` invocation: `spawn(cmd, args, ...)`. -/
  | spawnCmd (cmd : String) (args : List String)
  /-- the `<executable> install FAILED...` diagnostic block. -/
  | installFailLog (executable : String)
  /-- the `<installer> lint FAILED...` diagnostic block. -/
  | lintFailLog (executable : String)
  /-- `console.log(chalk.red('Error:'), e)` in `complete`'s catch. -/
  | errorLog
  /-- `process.exit(code)`. -/
  | processExit (code : Nat)
  /-- `printMessage(data, chalk)`: the final instructional report. -/
  | finalReport
  deriving Repr, DecidableEq

/-- How one invocation of `complete` ends. -/
inductive Outcome where
  /-- the async function returns normally. -/
  | normal
  /-- `process.exit code` terminated the host process. -/
  | exited (code : Nat)
  /-- an error propagated out of `complete` (rejected promise). -/
  | threw
  deriving Repr, DecidableEq

/-- `installDependencies` from the source: star banner, one
`runCommand(executable, ['install'], { cwd })`; on rejection it prints the
failure diagnostic and calls `process.exit(1)` (second component `true`). -/
def installDependencies (executable : String) (exitCode : Option Int) :
    List Ev × Bool :=
  let tr := [Ev.starLog "Installing project dependencies...",
             Ev.spawnCmd executable ["install"]]
  match runCommandOutcome exitCode with
  | .success => (tr, false)
  | .failure _ => (tr ++ [Ev.installFailLog executable, Ev.processExit 1], true)

/-- The lint-fix argument list from `runLintFix`:
`data.autoInstall === 'npm' ? ['run','lint','--','--fix'] : ['run','lint','--fix']`. -/
def lintArgs (data : Config) : List String :=
  if data.autoInstall = "npm" then ["run", "lint", "--", "--fix"]
  else ["run", "lint", "--fix"]

/-- `runLintFix` from the source: gated on
`data.preset.lint && lintStyles.indexOf(data.lintConfig) !== -1`; runs one
`runCommand(data.autoInstall, args, { cwd })`; a rejection is caught
locally and only logged. -/
def runLintFix (data : Config) (exitCode : Option Int) : List Ev :=
  if data.presetLint && lintStyles.contains data.lintConfig then
    let tr := [Ev.starLog
                 "Running eslint --fix to comply with chosen preset rules...",
               Ev.spawnCmd data.autoInstall (lintArgs data)]
    match runCommandOutcome exitCode with
    | .success => tr
    | .failure _ => tr ++ [Ev.lintFailLog data.autoInstall]
  else []

/-- Environment of one orchestration run: the result of reading/parsing
`package.json` (`Except.error` = file missing or malformed JSON, so
`JSON.parse(fs.readFileSync(pkgFile))` throws), and the `exit`-event
payloads the two possible subprocesses would report. -/
structure Env where
  manifest : Except Unit Manifest
  installExit : Option Int
  lintExit : Option Int

/-- `module.exports.complete` from the source. `sortDependencies(data)` is
called before (outside) the `try` block, so a throw there propagates out
of `complete`; the `try`/`catch` wraps only the install and lint-fix
stages; `printMessage` is the last statement of the function body. -/
def complete (data : Config) (env : Env) : List Ev × Outcome :=
  match env.manifest with
  | .error _ => ([], .threw)
  | .ok pkg =>
      let s := sortDependencies pkg
      let tr := if s.2 then [Ev.writeManifest s.1] else []
      if data.autoInstall = "" then
        (tr ++ [Ev.finalReport], .normal)
      else
        let inst := installDependencies data.autoInstall env.installExit
        if inst.2 then (tr ++ inst.1, .exited 1)
        else (tr ++ inst.1 ++ runLintFix data env.lintExit ++ [Ev.finalReport],
              .normal)

/-- Recognizer for `runCommand` invocations in a trace. -/
def isSpawn : Ev → Bool
  | .spawnCmd _ _ => true
  | _ => false

/-! ### Lemmas about association-list lookup and `sortObject` -/

theorem lookup_map_keys (f : String → String) (k : String) :
    ∀ ks : List String,
      (ks.map (fun item => (item, f item))).lookup k =
        if k ∈ ks then some (f k) else none := by
  intro ks
  induction ks with
  | nil => simp
  | cons a t ih =>
      by_cases h : k = a
      · subst h
        simp [List.lookup]
      · have hba : (k == a) = false := beq_eq_false_iff_ne.mpr h
        simp [List.lookup, hba, ih, h]

theorem lookup_eq_none_of_not_mem {l : List (String × String)} {k : String}
    (h : k ∉ l.map Prod.fst) : l.lookup k = none := by
  induction l with
  | nil => rfl
  | cons p t ih =>
      simp only [List.map_cons, List.mem_cons] at h
      push_neg at h
      have hba : (k == p.1) = false := beq_eq_false_iff_ne.mpr h.1
      simp [List.lookup, hba, ih h.2]

theorem exists_lookup_of_mem {l : List (String × String)} {k : String}
    (h : k ∈ l.map Prod.fst) : ∃ v, l.lookup k = some v := by
  induction l with
  | nil => simp at h
  | cons p t ih =>
      by_cases hk : k = p.1
      · exact ⟨p.2, by simp [List.lookup, hk]⟩
      · simp only [List.map_cons, List.mem_cons] at h
        rcases h with h | h
        · exact absurd h hk
        · rcases ih h with ⟨v, hv⟩
          have hba : (k == p.1) = false := beq_eq_false_iff_ne.mpr hk
          exact ⟨v, by simp [List.lookup, hba, hv]⟩

/-- `sortStrings` permutes its input. -/
theorem perm_sortStrings (l : List String) : (sortStrings l).Perm l :=
  @List.perm_insertionSort String (fun a b => a ≤ b) decStrLe l

/-- Membership is preserved by `sortStrings`. -/
theorem mem_sortStrings {l : List String} {x : String} :
    x ∈ sortStrings l ↔ x ∈ l :=
  (perm_sortStrings l).mem_iff

/-- `sortStrings` sorts ascending. -/
theorem sorted_sortStrings (l : List String) : (sortStrings l).Sorted (· ≤ ·) :=
  @List.sorted_insertionSort String (fun a b => a ≤ b) decStrLe _ _ l

/-- `sortStrings` fixes an already-sorted list. -/
theorem sortStrings_of_sorted {l : List String} (h : l.Sorted (· ≤ ·)) :
    sortStrings l = l :=
  @List.Sorted.insertionSort_eq String (fun a b => a ≤ b) decStrLe l h

/-- The keys of `sortObject object` are exactly the original keys, sorted. -/
theorem keys_sortObject (object : List (String × String)) :
    (sortObject object).map Prod.fst = sortStrings (object.map Prod.fst) := by
  simp [sortObject, List.map_map, Function.comp_def]

/-- `sortObject` never changes what any key looks up to. -/
theorem lookup_sortObject (object : List (String × String)) (k : String) :
    (sortObject object).lookup k = object.lookup k := by
  unfold sortObject
  rw [lookup_map_keys]
  by_cases h : k ∈ sortStrings (object.map Prod.fst)
  · rw [if_pos h]
    rcases exists_lookup_of_mem (mem_sortStrings.1 h) with ⟨v, hv⟩
    simp [hv]
  · rw [if_neg h]
    exact (lookup_eq_none_of_not_mem
      (fun hm => h (mem_sortStrings.2 hm))).symm

/-- The keys of `sortObject object` are in ascending order. -/
theorem keys_sortObject_sorted (object : List (String × String)) :
    ((sortObject object).map Prod.fst).Sorted (· ≤ ·) := by
  rw [keys_sortObject]
  exact sorted_sortStrings _

/-- With no duplicate keys, the keys of `sortObject object` are strictly
ascending. -/
theorem keys_sortObject_sorted_lt (object : List (String × String))
    (h : (object.map Prod.fst).Nodup) :
    ((sortObject object).map Prod.fst).Sorted (· < ·) :=
  (keys_sortObject_sorted object).lt_of_le
    (keys_sortObject object ▸ (perm_sortStrings _).nodup_iff.2 h)

/-- `sortObject` is idempotent. -/
theorem sortObject_idempotent (object : List (String × String)) :
    sortObject (sortObject object) = sortObject object := by
  conv_lhs => rw [sortObject]
  rw [keys_sortObject, sortStrings_of_sorted (sorted_sortStrings _)]
  simp only [lookup_sortObject]
  rfl

/-! ### Claim theorems -/

/-- C2: `lintMsg` returns a non-empty manual-lint-fix reminder exactly when
no installer is configured (falsy `autoInstall`) AND linting was selected
(`data.lint`) AND the configured style is in {prettier, standard, airbnb};
in every other case it returns the empty string. -/
theorem c2_lintMsg_nonempty_iff (data : Config) :
    lintMsg data ≠ "" ↔
      data.autoInstall = "" ∧ data.lint = true ∧ data.lintConfig ∈ lintStyles := by
  rw [lintMsg]
  split
  next h =>
    simp only [Bool.and_eq_true, beq_iff_eq] at h
    simp only [List.elem_iff] at h
    obtain ⟨⟨h1, h2⟩, h3⟩ := h
    simp [h1, h2, h3]
  next h =>
    have hnot : ¬(data.autoInstall = "" ∧ data.lint = true ∧
        data.lintConfig ∈ lintStyles) := by
      intro ⟨h1, h2, h3⟩
      apply h
      simp only [h1, h2, beq_self_eq_true, Bool.true_and]
      exact List.elem_iff.mpr h3
    simp [hnot]


/-- C5: the key-sorting transformation is idempotent:
`sortObject (sortObject x) = sortObject x` for every mapping `x`. -/
theorem c5_sortObject_idempotent (x : List (String × String)) :
    sortObject (sortObject x) = sortObject x :=
  sortObject_idempotent x

/-- C7: when the child process exits with code 0 the `runCommand` promise
resolves with no value, and when it exits with any non-zero code the
promise rejects with that numeric exit code. -/
theorem c7_runCommand_exit_code (c : Int) (hc : c ≠ 0) :
    runCommandOutcome (some 0) = .success ∧
    runCommandOutcome (some c) = .failure c := by
  refine ⟨rfl, ?_⟩
  simp [runCommandOutcome, hc]

/-- C7 witness: instantiation at exit code 2. -/
theorem c7_witness :
    runCommandOutcome (some 0) = .success ∧
    runCommandOutcome (some 2) = .failure 2 :=
  c7_runCommand_exit_code 2 (by decide)

/-- C10: `runCommand` rejects only when the reported exit code is truthy;
a `null` code (child killed by a signal) resolves as success, and a
numeric code resolves exactly when it is 0. -/
theorem c10_null_exit_resolves :
    runCommandOutcome none = .success ∧
    ∀ c : Int, (runCommandOutcome (some c) = .success ↔ c = 0) := by
  refine ⟨rfl, fun c => ?_⟩
  by_cases h : c = 0
  · simp [runCommandOutcome, h]
  · simp [runCommandOutcome, h]

/-- C3 counterexample: a manifest whose `dependencies` keys are already in
sorted order. `sortDependencies` leaves the manifest value unchanged (no
reorder occurs), yet the `sorted` flag is `true`, so
`fs.writeFileSync` runs and the file is rewritten — refuting
"rewrites the manifest file only if a reorder occurred". -/
theorem c3_counterexample :
    (sortDependencies ⟨some [("a", "1.0.0"), ("b", "2.0.0")], none⟩).1 =
      ⟨some [("a", "1.0.0"), ("b", "2.0.0")], none⟩ ∧
    (sortDependencies ⟨some [("a", "1.0.0"), ("b", "2.0.0")], none⟩).2 = true := by
  constructor
  · rfl
  · rfl

/-- C3 amended: `sortDependencies` writes the manifest file exactly when
`dependencies` or `devDependencies` is present — even when the present
keys are already sorted; when neither field is present, no write occurs
and the manifest value is untouched. -/
theorem c3_write_iff_field_present (pkg : Manifest) :
    (sortDependencies pkg).2 =
      (pkg.dependencies.isSome || pkg.devDependencies.isSome) ∧
    (pkg.dependencies = none → pkg.devDependencies = none →
      sortDependencies pkg = (pkg, false)) := by
  rcases pkg with ⟨d, v⟩
  cases d <;> cases v <;> simp [sortDependencies]

/-- C3 witness: instantiation at the empty manifest. -/
theorem c3_witness :
    (sortDependencies ⟨none, none⟩).2 =
      ((none : Option (List (String × String))).isSome ||
       (none : Option (List (String × String))).isSome) ∧
    sortDependencies ⟨none, none⟩ = (⟨none, none⟩, false) :=
  ⟨(c3_write_iff_field_present ⟨none, none⟩).1,
   (c3_write_iff_field_present ⟨none, none⟩).2 rfl rfl⟩

/-- C4: for every manifest with unique keys in its present fields, after
`sortDependencies` each present field equals `sortObject` of the original,
its keys are strictly ascending, the key set is unchanged (up to
permutation) and every key looks up to its original value. -/
theorem c4_sortDependencies_sorts_fields (pkg : Manifest)
    (hd : ((pkg.dependencies.getD []).map Prod.fst).Nodup)
    (hv : ((pkg.devDependencies.getD []).map Prod.fst).Nodup) :
    ((sortDependencies pkg).1.dependencies = pkg.dependencies.map sortObject ∧
     (sortDependencies pkg).1.devDependencies =
       pkg.devDependencies.map sortObject) ∧
    (∀ d, pkg.dependencies = some d →
      ((sortObject d).map Prod.fst).Sorted (· < ·) ∧
      ((sortObject d).map Prod.fst).Perm (d.map Prod.fst) ∧
      ∀ k, (sortObject d).lookup k = d.lookup k) ∧
    (∀ d, pkg.devDependencies = some d →
      ((sortObject d).map Prod.fst).Sorted (· < ·) ∧
      ((sortObject d).map Prod.fst).Perm (d.map Prod.fst) ∧
      ∀ k, (sortObject d).lookup k = d.lookup k) := by
  refine ⟨?_, ?_, ?_⟩
  · rcases pkg with ⟨d, v⟩
    cases d <;> cases v <;> simp [sortDependencies]
  · intro d hdd
    rw [hdd] at hd
    simp only [Option.getD_some] at hd
    exact ⟨keys_sortObject_sorted_lt d hd,
      keys_sortObject d ▸ perm_sortStrings _,
      lookup_sortObject d⟩
  · intro d hvv
    rw [hvv] at hv
    simp only [Option.getD_some] at hv
    exact ⟨keys_sortObject_sorted_lt d hv,
      keys_sortObject d ▸ perm_sortStrings _,
      lookup_sortObject d⟩

/-- C4 witness: instantiation at a concrete two-field manifest. -/
theorem c4_witness :
    ((((⟨some [("b", "2.0.0"), ("a", "1.0.0")], some [("c", "3.0.0")]⟩ :
          Manifest).dependencies.getD []).map Prod.fst).Nodup ∧
     (((⟨some [("b", "2.0.0"), ("a", "1.0.0")], some [("c", "3.0.0")]⟩ :
          Manifest).devDependencies.getD []).map Prod.fst).Nodup) ∧
    (((sortDependencies ⟨some [("b", "2.0.0"), ("a", "1.0.0")],
          some [("c", "3.0.0")]⟩).1.dependencies =
        (⟨some [("b", "2.0.0"), ("a", "1.0.0")], some [("c", "3.0.0")]⟩ :
          Manifest).dependencies.map sortObject ∧
      (sortDependencies ⟨some [("b", "2.0.0"), ("a", "1.0.0")],
          some [("c", "3.0.0")]⟩).1.devDependencies =
        (⟨some [("b", "2.0.0"), ("a", "1.0.0")], some [("c", "3.0.0")]⟩ :
          Manifest).devDependencies.map sortObject) ∧
     (∀ d, (⟨some [("b", "2.0.0"), ("a", "1.0.0")], some [("c", "3.0.0")]⟩ :
          Manifest).dependencies = some d →
        ((sortObject d).map Prod.fst).Sorted (· < ·) ∧
        ((sortObject d).map Prod.fst).Perm (d.map Prod.fst) ∧
        ∀ k, (sortObject d).lookup k = d.lookup k) ∧
     (∀ d, (⟨some [("b", "2.0.0"), ("a", "1.0.0")], some [("c", "3.0.0")]⟩ :
          Manifest).devDependencies = some d →
        ((sortObject d).map Prod.fst).Sorted (· < ·) ∧
        ((sortObject d).map Prod.fst).Perm (d.map Prod.fst) ∧
        ∀ k, (sortObject d).lookup k = d.lookup k)) :=
  ⟨⟨by decide, by decide⟩,
   c4_sortDependencies_sorts_fields
     ⟨some [("b", "2.0.0"), ("a", "1.0.0")], some [("c", "3.0.0")]⟩
     (by decide) (by decide)⟩

/-- C1 counterexample: with the manifest file missing or malformed
(stage 1 throws), `complete` does not catch the error — its try/catch
begins only after `sortDependencies` — so no generic error line is
printed, the error propagates out of `complete`, and `printMessage`
(stage 4) is never called. -/
theorem c1_counterexample :
    complete ⟨false, "my-app", "npm", true, true, "standard"⟩
        ⟨.error (), some 0, some 0⟩ = ([], .threw) ∧
    Ev.finalReport ∉
      (complete ⟨false, "my-app", "npm", true, true, "standard"⟩
        ⟨.error (), some 0, some 0⟩).1 ∧
    Ev.errorLog ∉
      (complete ⟨false, "my-app", "npm", true, true, "standard"⟩
        ⟨.error (), some 0, some 0⟩).1 :=
  ⟨rfl, by decide, by decide⟩

/-- C1 amended: an error thrown by the manifest-sorting stage is NOT
caught inside `complete` (`sortDependencies` runs before the try/catch,
which wraps only stages 2–3): the error propagates out of `complete`,
nothing is printed, and `printMessage` is not called. -/
theorem c1_stage1_error_uncaught (data : Config) (env : Env)
    (h : env.manifest = .error ()) :
    complete data env = ([], .threw) := by
  rcases env with ⟨m, ie, le⟩
  simp only at h
  subst h
  rfl

/-- C1 witness: instantiation at a concrete configuration. -/
theorem c1_witness :
    complete ⟨true, "", "", false, false, ""⟩ ⟨.error (), none, none⟩ =
      ([], .threw) :=
  c1_stage1_error_uncaught ⟨true, "", "", false, false, ""⟩
    ⟨.error (), none, none⟩ rfl

/-- Helper: the lint-fix argument list is never the install argument
list. -/
theorem lintArgs_ne_install (data : Config) : lintArgs data ≠ ["install"] := by
  rw [lintArgs]
  split <;> simp

/-- Helper: shape of a `complete` run whose install stage succeeds. -/
theorem complete_ok_shape (data : Config) (ie le : Option Int)
    (pkg : Manifest) (hai : data.autoInstall ≠ "")
    (hr : runCommandOutcome ie = .success) :
    complete data ⟨.ok pkg, ie, le⟩ =
      ((if (sortDependencies pkg).2 then
          [Ev.writeManifest (sortDependencies pkg).1] else []) ++
       [Ev.starLog "Installing project dependencies...",
        Ev.spawnCmd data.autoInstall ["install"]] ++
       runLintFix data le ++ [Ev.finalReport], .normal) := by
  simp [complete, installDependencies, hr, hai]

/-- Helper: shape of a `complete` run whose install stage fails. -/
theorem complete_install_fail_shape (data : Config) (ie le : Option Int)
    (pkg : Manifest) (c : Int) (hai : data.autoInstall ≠ "")
    (hr : runCommandOutcome ie = .failure c) :
    complete data ⟨.ok pkg, ie, le⟩ =
      ((if (sortDependencies pkg).2 then
          [Ev.writeManifest (sortDependencies pkg).1] else []) ++
       [Ev.starLog "Installing project dependencies...",
        Ev.spawnCmd data.autoInstall ["install"],
        Ev.installFailLog data.autoInstall, Ev.processExit 1],
       .exited 1) := by
  simp [complete, installDependencies, hr, hai]

/-- Helper: the lint-fix spawn occurs in `runLintFix` exactly when the
gate `data.preset.lint && lintStyles.indexOf(data.lintConfig) !== -1` is
satisfied. -/
theorem runLintFix_spawn_mem (data : Config) (le : Option Int) :
    Ev.spawnCmd data.autoInstall (lintArgs data) ∈ runLintFix data le ↔
      data.presetLint = true ∧ data.lintConfig ∈ lintStyles := by
  rw [runLintFix]
  by_cases hg : (data.presetLint && lintStyles.contains data.lintConfig) = true
  · rw [if_pos hg]
    simp only [Bool.and_eq_true, List.elem_iff] at hg
    cases runCommandOutcome le <;> simp [hg.1, hg.2]
  · rw [if_neg hg]
    simp only [Bool.and_eq_true, List.elem_iff] at hg
    simp only [List.not_mem_nil, false_iff]
    intro ⟨h1, h2⟩
    exact hg ⟨h1, h2⟩

/-- C6: with an installer configured and the install command exiting with
any non-zero code, the orchestrator prints the install-failure
diagnostic, terminates the host process with status 1, invokes the
command runner exactly once (the lint-fix stage never runs), and never
prints the final report. -/
theorem c6_install_failure_fatal (data : Config) (env : Env)
    (pkg : Manifest) (c : Int) (hok : env.manifest = .ok pkg)
    (hai : data.autoInstall ≠ "") (hexit : env.installExit = some c)
    (hc : c ≠ 0) :
    (complete data env).2 = .exited 1 ∧
    Ev.installFailLog data.autoInstall ∈ (complete data env).1 ∧
    Ev.processExit 1 ∈ (complete data env).1 ∧
    (complete data env).1.countP isSpawn = 1 ∧
    Ev.finalReport ∉ (complete data env).1 := by
  rcases env with ⟨m, ie, le⟩
  simp only at hok hexit
  subst hok hexit
  have hr : runCommandOutcome (some c) = .failure c := by
    simp [runCommandOutcome, hc]
  rw [complete_install_fail_shape data (some c) le pkg c hai hr]
  cases hs : (sortDependencies pkg).2 <;>
    simp [hs, isSpawn, List.countP_cons, List.countP_append, List.countP_nil]

/-- C6 witness: instantiation with installer `npm`, a sorted one-entry
manifest and install exit code 2. -/
theorem c6_witness :
    ((Except.ok (⟨some [("a", "1.0.0")], none⟩ : Manifest) :
        Except Unit Manifest) = .ok ⟨some [("a", "1.0.0")], none⟩ ∧
     ("npm" : String) ≠ "" ∧ (some (2 : Int) = some 2) ∧ (2 : Int) ≠ 0) ∧
    ((complete ⟨false, "my-app", "npm", true, true, "standard"⟩
        ⟨.ok ⟨some [("a", "1.0.0")], none⟩, some 2, some 0⟩).2 = .exited 1 ∧
     Ev.installFailLog "npm" ∈
       (complete ⟨false, "my-app", "npm", true, true, "standard"⟩
         ⟨.ok ⟨some [("a", "1.0.0")], none⟩, some 2, some 0⟩).1 ∧
     Ev.processExit 1 ∈
       (complete ⟨false, "my-app", "npm", true, true, "standard"⟩
         ⟨.ok ⟨some [("a", "1.0.0")], none⟩, some 2, some 0⟩).1 ∧
     (complete ⟨false, "my-app", "npm", true, true, "standard"⟩
         ⟨.ok ⟨some [("a", "1.0.0")], none⟩, some 2, some 0⟩).1.countP isSpawn
       = 1 ∧
     Ev.finalReport ∉
       (complete ⟨false, "my-app", "npm", true, true, "standard"⟩
         ⟨.ok ⟨some [("a", "1.0.0")], none⟩, some 2, some 0⟩).1) :=
  ⟨⟨rfl, by decide, rfl, by decide⟩,
   c6_install_failure_fatal ⟨false, "my-app", "npm", true, true, "standard"⟩
     ⟨.ok ⟨some [("a", "1.0.0")], none⟩, some 2, some 0⟩
     ⟨some [("a", "1.0.0")], none⟩ 2 rfl (by decide) rfl (by decide)⟩

/-- C8: the lint-fix stage runs exactly when the install stage succeeded
(installer configured and install resolved) AND linting was selected
(`preset.lint`) AND the style is one of {prettier, standard, airbnb};
when it runs, it invokes the configured installer with
`['run','lint','--','--fix']` if the installer is `npm` and
`['run','lint','--fix']` for any other installer. -/
theorem c8_lintfix_gating (data : Config) (env : Env) (pkg : Manifest)
    (hok : env.manifest = .ok pkg) :
    (Ev.spawnCmd data.autoInstall (lintArgs data) ∈ (complete data env).1 ↔
      (data.autoInstall ≠ "" ∧ runCommandOutcome env.installExit = .success ∧
       data.presetLint = true ∧ data.lintConfig ∈ lintStyles)) ∧
    (data.autoInstall = "npm" →
      lintArgs data = ["run", "lint", "--", "--fix"]) ∧
    (data.autoInstall ≠ "npm" → lintArgs data = ["run", "lint", "--fix"]) := by
  refine ⟨?_, fun h => by rw [lintArgs, if_pos h],
    fun h => by rw [lintArgs, if_neg h]⟩
  rcases env with ⟨m, ie, le⟩
  simp only at hok
  subst hok
  by_cases hai : data.autoInstall = ""
  · cases hs : (sortDependencies pkg).2 <;>
      simp [complete, hai, hs]
  · cases hr : runCommandOutcome ie with
    | failure c =>
        rw [complete_install_fail_shape data ie le pkg c hai hr]
        cases hs : (sortDependencies pkg).2 <;>
          simp [hs, hr, hai, lintArgs_ne_install data]
    | success =>
        rw [complete_ok_shape data ie le pkg hai hr]
        cases hs : (sortDependencies pkg).2 <;>
          simp [hs, hr, hai, lintArgs_ne_install data, runLintFix_spawn_mem]

/-- C8 witness: installer `yarn`, lint selected with style `standard`,
install succeeding. -/
theorem c8_witness :
    ((Except.ok (⟨none, none⟩ : Manifest) : Except Unit Manifest) =
        .ok ⟨none, none⟩) ∧
    (Ev.spawnCmd "yarn"
        (lintArgs ⟨false, "my-app", "yarn", true, true, "standard"⟩) ∈
        (complete ⟨false, "my-app", "yarn", true, true, "standard"⟩
          ⟨.ok ⟨none, none⟩, some 0, some 0⟩).1 ↔
      (("yarn" : String) ≠ "" ∧
       runCommandOutcome (some 0) = .success ∧
       true = true ∧ ("standard" : String) ∈ lintStyles)) ∧
    (("yarn" : String) = "npm" →
      lintArgs ⟨false, "my-app", "yarn", true, true, "standard"⟩ =
        ["run", "lint", "--", "--fix"]) ∧
    (("yarn" : String) ≠ "npm" →
      lintArgs ⟨false, "my-app", "yarn", true, true, "standard"⟩ =
        ["run", "lint", "--fix"]) :=
  ⟨rfl, c8_lintfix_gating ⟨false, "my-app", "yarn", true, true, "standard"⟩
    ⟨.ok ⟨none, none⟩, some 0, some 0⟩ ⟨none, none⟩ rfl⟩

/-- C9: a lint-fix command failure is non-fatal: the orchestrator prints
the lint-failure diagnostic, does not terminate the host process, and
still prints the final report. -/
theorem c9_lintfix_failure_nonfatal (data : Config) (env : Env)
    (pkg : Manifest) (c : Int) (hok : env.manifest = .ok pkg)
    (hai : data.autoInstall ≠ "")
    (hinstall : runCommandOutcome env.installExit = .success)
    (hlint : data.presetLint = true)
    (hstyle : data.lintConfig ∈ lintStyles)
    (hexit : env.lintExit = some c) (hc : c ≠ 0) :
    Ev.lintFailLog data.autoInstall ∈ (complete data env).1 ∧
    Ev.finalReport ∈ (complete data env).1 ∧
    (complete data env).2 = .normal ∧
    ∀ n, Ev.processExit n ∉ (complete data env).1 := by
  rcases env with ⟨m, ie, le⟩
  simp only at hok hexit hinstall
  subst hok hexit
  rw [complete_ok_shape data ie (some c) pkg hai hinstall]
  have hgb : (data.presetLint && lintStyles.contains data.lintConfig)
      = true := by
    simp only [hlint, Bool.true_and]
    exact List.elem_iff.mpr hstyle
  have hl : runCommandOutcome (some c) = .failure c := by
    simp [runCommandOutcome, hc]
  cases hs : (sortDependencies pkg).2 <;>
    simp [hs, runLintFix, hgb, hl, hlint, hstyle]

/-- C9 witness: installer `npm`, style `prettier`, install exit 0, lint
exit 7. -/
theorem c9_witness :
    ((Except.ok (⟨none, some [("a", "1.0.0")]⟩ : Manifest) :
        Except Unit Manifest) = .ok ⟨none, some [("a", "1.0.0")]⟩ ∧
     ("npm" : String) ≠ "" ∧
     runCommandOutcome (some 0) = .success ∧
     true = true ∧ ("prettier" : String) ∈ lintStyles ∧
     (some (7 : Int) = some 7) ∧ (7 : Int) ≠ 0) ∧
    (Ev.lintFailLog "npm" ∈
       (complete ⟨false, "my-app", "npm", true, true, "prettier"⟩
         ⟨.ok ⟨none, some [("a", "1.0.0")]⟩, some 0, some 7⟩).1 ∧
     Ev.finalReport ∈
       (complete ⟨false, "my-app", "npm", true, true, "prettier"⟩
         ⟨.ok ⟨none, some [("a", "1.0.0")]⟩, some 0, some 7⟩).1 ∧
     (complete ⟨false, "my-app", "npm", true, true, "prettier"⟩
         ⟨.ok ⟨none, some [("a", "1.0.0")]⟩, some 0, some 7⟩).2 = .normal ∧
     ∀ n, Ev.processExit n ∉
       (complete ⟨false, "my-app", "npm", true, true, "prettier"⟩
         ⟨.ok ⟨none, some [("a", "1.0.0")]⟩, some 0, some 7⟩).1) :=
  ⟨⟨rfl, by decide, rfl, rfl, by decide, rfl, by decide⟩,
   c9_lintfix_failure_nonfatal
     ⟨false, "my-app", "npm", true, true, "prettier"⟩
     ⟨.ok ⟨none, some [("a", "1.0.0")]⟩, some 0, some 7⟩
     ⟨none, some [("a", "1.0.0")]⟩ 7 rfl (by decide) rfl rfl (by decide)
     rfl (by decide)⟩

end QuasarApp
